import Mathlib

/-!
Verification of the jellyfish hashing layer: the merkle-tree digest backends
of `primitives/src/merkle_tree/examples.rs` and the hash-to-group algorithm
of `primitives/src/hash_to_group/short_weierstrass.rs`.

External collaborators (the Rescue sponge permutation, SHA-256, SHA3-256,
the ChaCha20 pseudo-random generator, and curve point operations) are not
part of this slice; they are modelled as parameters, so every theorem below
holds for every instantiation of those primitives.
-/

namespace Jellyfish

/- ## Sponge (Rescue) digest backend -/

/-- Interface to the external Rescue permutation sponge and the field
operations used by the sponge-based digest backend.

* `spongeNoPadding data n` models `Permutation::sponge_no_padding(data, n)`
  which returns `n` output field elements; `none` models the error case
  (the Rust code calls `.unwrap()` on it).
* `fromU64` models `F::from(pos)` for a `u64` position (positions are
  embedded as naturals).
* `zero` models `F::zero()`. -/
structure RescueModel (F : Type) where
  spongeNoPadding : List F → Nat → Option (List F)
  fromU64 : Nat → F
  zero : F

namespace RescueHash

/-- `RescueHash::digest` (scalar instance, examples.rs lines 24-27):
`perm.sponge_no_padding(data, 1).unwrap()[0]`.  The `.unwrap()` and the
indexing `[0]` are both panics when they fail, modelled by `Option`. -/
def digest {F : Type} (M : RescueModel F) (data : List F) : Option F :=
  (M.spongeNoPadding data 1).bind List.head?

/-- `RescueHash::digest_leaf` (scalar instance, examples.rs lines 29-33):
`data = [F::from(*pos), *elem, F::zero()]`, then
`perm.sponge_no_padding(&data, 1).unwrap()[0]`. -/
def digest_leaf {F : Type} (M : RescueModel F) (pos : Nat) (elem : F) : Option F :=
  (M.spongeNoPadding [M.fromU64 pos, elem, M.zero] 1).bind List.head?

end RescueHash

/-- Element type for the interval merkle tree: `Interval<F>(pub F, pub F)`
(examples.rs line 44). -/
structure Interval (F : Type) where
  low : F
  high : F

namespace RescueHashInterval

/-- `RescueHash::digest` of the `Interval` trait instance
(examples.rs lines 48-51); identical body to the scalar instance. -/
def digest {F : Type} (M : RescueModel F) (data : List F) : Option F :=
  (M.spongeNoPadding data 1).bind List.head?

/-- `RescueHash::digest_leaf` of the `Interval` trait instance
(examples.rs lines 53-57): `data = [F::from(*pos), elem.0, elem.1]`, then
`perm.sponge_no_padding(&data, 1).unwrap()[0]`. -/
def digest_leaf {F : Type} (M : RescueModel F) (pos : Nat) (elem : Interval F) :
    Option F :=
  (M.spongeNoPadding [M.fromU64 pos, elem.low, elem.high] 1).bind List.head?

end RescueHashInterval

/-- The spec's wording for the scalar leaf hash: "the first output element of
the no-padding sponge applied to the 3-element vector
`[field-encoding(position), element, zero]`". -/
def specScalarLeafHash {F : Type} (M : RescueModel F) (pos : Nat) (elem : F) :
    Option F :=
  (M.spongeNoPadding [M.fromU64 pos, elem, M.zero] 1).bind List.head?

/-- The spec's wording for the interval leaf hash: "the first output element
of the no-padding sponge applied to the full-rate 3-element vector
`[field-encoding(position), low, high]`". -/
def specIntervalLeafHash {F : Type} (M : RescueModel F) (pos : Nat)
    (elem : Interval F) : Option F :=
  (M.spongeNoPadding [M.fromU64 pos, elem.low, elem.high] 1).bind List.head?

/-- C6: for the sponge backend over scalar field elements,
`digest_leaf(position, element)` equals the first output element of the
no-padding sponge applied to `[field-encoding(position), element, zero]`,
for every position and field element (and every sponge instantiation). -/
theorem digest_leaf_eq_spec {F : Type} (M : RescueModel F) (pos : Nat)
    (elem : F) :
    RescueHash.digest_leaf M pos elem = specScalarLeafHash M pos elem := rfl

/-- C7: for the interval variant of the sponge backend,
`digest_leaf(position, Interval(low, high))` equals the first output element
of the no-padding sponge applied to `[field-encoding(position), low, high]`,
for every position and interval element (and every sponge instantiation). -/
theorem interval_digest_leaf_eq_spec {F : Type} (M : RescueModel F) (pos : Nat)
    (elem : Interval F) :
    RescueHashInterval.digest_leaf M pos elem = specIntervalLeafHash M pos elem :=
  rfl

/-- C1: the claimed leaf/internal domain separation FAILS on the code: for
every sponge instantiation, every position `p` and element `e`, the leaf hash
`digest_leaf(p, e)` is EQUAL to the internal-node hash
`digest([field-encoding(p), e, 0])` — both are the identical
`sponge_no_padding` call — refuting the claim that they never coincide. -/
theorem digest_leaf_eq_digest_of_encoding {F : Type} (M : RescueModel F)
    (pos : Nat) (elem : F) :
    RescueHash.digest_leaf M pos elem =
      RescueHash.digest M [M.fromU64 pos, elem, M.zero] := rfl

/-- C10: cross-instantiation collision — the interval-backend leaf hash of
`Interval(a, zero)` equals the scalar-backend leaf hash of `a` at the same
position, since both reduce to the same sponge call on
`[field-encoding(p), a, zero]`. -/
theorem interval_scalar_leaf_collision {F : Type} (M : RescueModel F)
    (pos : Nat) (a : F) :
    RescueHashInterval.digest_leaf M pos ⟨a, M.zero⟩ =
      RescueHash.digest_leaf M pos a := rfl

/- ## Byte-oriented (SHA3) digest backend -/

/-- `Sha3Node([u8; 32])` (examples.rs line 66): a node hash holding the raw
32 bytes; bytes are embedded as naturals.  `AsRef<[u8]>` returns `bytes`. -/
structure Sha3Node where
  bytes : List Nat
deriving DecidableEq

/-- The incremental hasher state of the external `Sha3_256` hasher, modelled
semantically as the byte string absorbed so far.  `Sha3_256::new()` starts
from the empty string. -/
def sha3New : List Nat := []

/-- `hasher.update(value)` absorbs `value`'s bytes after everything absorbed
before. -/
def sha3Update (st b : List Nat) : List Nat := st ++ b

namespace Sha3Digest

/-- `Sha3Digest::digest` (examples.rs lines 79-85): create a `Sha3_256`
hasher, update it with each child in order, finalize.  `sha3_256` is the
external compression function applied by `finalize`. -/
def digest (sha3_256 : List Nat → List Nat) (data : List Sha3Node) : Sha3Node :=
  ⟨sha3_256 (data.foldl (fun st v => sha3Update st v.bytes) sha3New)⟩

/-- `Sha3Digest::digest_leaf` (examples.rs lines 87-90): the body is
`todo!()`, an unconditional panic carrying the message "not yet implemented";
the panic is modelled as an `Except.error`. -/
def digest_leaf {I E : Type} (_pos : I) (_elem : E) : Except String Sha3Node :=
  Except.error "not yet implemented"

end Sha3Digest

/-- The spec's wording for the byte-oriented parent hash: "concatenates the
raw byte representations of all children in order and applies a fixed
cryptographic hash function over the concatenation". -/
def specSha3Digest (sha3_256 : List Nat → List Nat) (data : List Sha3Node) :
    Sha3Node :=
  ⟨sha3_256 (data.map Sha3Node.bytes).flatten⟩

theorem sha3_foldl_eq_join (data : List Sha3Node) (st : List Nat) :
    data.foldl (fun st v => sha3Update st v.bytes) st =
      st ++ (data.map Sha3Node.bytes).flatten := by
  induction data generalizing st with
  | nil => simp
  | cons v tl ih =>
    rw [List.foldl_cons, ih]
    simp [sha3Update, List.append_assoc]

/-- C8: the byte-oriented backend's `digest(children)` equals the fixed
hash (SHA3-256) of the in-order concatenation of the raw byte
representations of all children, for every child sequence and every
instantiation of the hash function. -/
theorem sha3_digest_eq_spec (sha3_256 : List Nat → List Nat)
    (data : List Sha3Node) :
    Sha3Digest.digest sha3_256 data = specSha3Digest sha3_256 data := by
  unfold Sha3Digest.digest specSha3Digest sha3New
  rw [sha3_foldl_eq_join]
  simp

/-- C9: invoking the byte-oriented backend's `digest_leaf` always produces
the explicit "not yet implemented" failure and never returns a node-hash
value, whatever the position and element (in particular it never returns the
default all-zero hash). -/
theorem sha3_digest_leaf_fails {I E : Type} (pos : I) (elem : E) :
    Sha3Digest.digest_leaf pos elem = Except.error "not yet implemented" ∧
      ∀ h : Sha3Node, Sha3Digest.digest_leaf pos elem ≠ Except.ok h :=
  ⟨rfl, fun _ hcontra => Except.noConfusion hcontra⟩

/- ## Hash-to-group for short Weierstrass curves -/

/-- Modelled from the spec: the error taxonomy of the error-handling design
(`ConfigurationError`, `NotImplemented`); the errors module itself is outside
this slice.  Only the existence of the error side of the result type matters
for the theorems below: the default `hash_to_group` never constructs one. -/
inductive PrimitivesError where
  | configurationError : PrimitivesError
  | notImplemented : PrimitivesError
deriving DecidableEq

/-- Interface to the external primitives used by the default
`SWHashToGroup::hash_to_group`:

* `sha256` models finalizing the external `Sha256` hasher on the bytes
  absorbed so far (its 32-byte output is copied into the seed);
* `fromSeed` models `ChaCha20Rng::from_seed`, `R` being the generator state;
* `randF` models `Self::BaseField::rand(&mut rng)`, returning the sampled
  base-field element and the advanced generator state;
* `genBool` models `rng.gen::<bool>()`;
* `getPointFromX` models `GroupAffine::<Self>::get_point_from_x(x, y_flag)`;
* `mulByCofactorToProjective` models `p.mul_by_cofactor_to_projective()`. -/
structure HtgModel (F P PP R : Type) where
  sha256 : List Nat → List Nat
  fromSeed : List Nat → R
  randF : R → F × R
  genBool : R → Bool × R
  getPointFromX : F → Bool → Option P
  mulByCofactorToProjective : P → PP

/-- The `loop` of `hash_to_group` (short_weierstrass.rs lines 41-48), with
explicit fuel: each iteration draws `x`, then the sign flag `y_flag`, and on
the first successful point recovery returns `Ok` of the cofactor multiple.
`none` models an invocation still inside the loop after `fuel` iterations. -/
def sampleLoop {F P PP R : Type} (M : HtgModel F P PP R) :
    Nat → R → Option (Except PrimitivesError PP)
  | 0, _ => none
  | fuel + 1, rng =>
    let xr := M.randF rng
    let yr := M.genBool xr.2
    match M.getPointFromX xr.1 yr.1 with
    | some p => some (Except.ok (M.mulByCofactorToProjective p))
    | none => sampleLoop M fuel yr.2

/-- The incremental `Sha256` hasher state, modelled as the bytes absorbed so
far; `Sha256::new()` starts from the empty string. -/
def sha256New : List Nat := []

/-- `hasher.update(b)` absorbs `b` after everything absorbed before. -/
def sha256Update (st b : List Nat) : List Nat := st ++ b

/-- Default `SWHashToGroup::hash_to_group` (short_weierstrass.rs lines
32-49): absorb `[cs_id.as_ref(), data.as_ref()].concat()` into a fresh
`Sha256` hasher, copy the finalized 32 bytes into the seed, seed a
`ChaCha20Rng` from it, and rejection-sample.  `fuel` bounds the number of
loop iterations an invocation is observed for. -/
def hash_to_group {F P PP R : Type} (M : HtgModel F P PP R) (fuel : Nat)
    (data cs_id : List Nat) : Option (Except PrimitivesError PP) :=
  let st := sha256Update sha256New (cs_id ++ data)
  let seed := M.sha256 st
  let rng := M.fromSeed seed
  sampleLoop M fuel rng

theorem sampleLoop_mono {F P PP R : Type} (M : HtgModel F P PP R)
    {n m : Nat} {rng : R} {r : Except PrimitivesError PP}
    (h : sampleLoop M n rng = some r) (hnm : n ≤ m) :
    sampleLoop M m rng = some r := by
  induction n generalizing rng m with
  | zero => simp [sampleLoop] at h
  | succ n ih =>
    obtain ⟨k, rfl⟩ : ∃ k, m = k + 1 := ⟨m - 1, by omega⟩
    simp only [sampleLoop] at h ⊢
    cases hx : M.getPointFromX (M.randF rng).1 (M.genBool (M.randF rng).2).1 with
    | some p => rw [hx] at h; exact h
    | none =>
      rw [hx] at h
      exact ih h (by omega)

/-- C2: the default `hash_to_group` is deterministic: two invocations on the
same `(message, context)` pair that both return — even when observed for
different numbers of loop iterations — return the identical group element. -/
theorem hash_to_group_deterministic {F P PP R : Type} (M : HtgModel F P PP R)
    (fuel₁ fuel₂ : Nat) (data cs_id : List Nat)
    (r₁ r₂ : Except PrimitivesError PP)
    (h₁ : hash_to_group M fuel₁ data cs_id = some r₁)
    (h₂ : hash_to_group M fuel₂ data cs_id = some r₂) :
    r₁ = r₂ := by
  simp only [hash_to_group] at h₁ h₂
  rcases le_total fuel₁ fuel₂ with hle | hle
  · have h := sampleLoop_mono M h₁ hle
    rw [h] at h₂
    exact Option.some_inj.mp h₂
  · have h := sampleLoop_mono M h₂ hle
    rw [h] at h₁
    exact (Option.some_inj.mp h₁).symm

/-- C3: the seed handed to `ChaCha20Rng::from_seed` is the SHA-256 digest of
the context followed by the message: running `hash_to_group` is running the
rejection-sampling loop on a generator seeded with
`sha256 (cs_id ++ data)`. -/
theorem hash_to_group_seed {F P PP R : Type} (M : HtgModel F P PP R)
    (fuel : Nat) (data cs_id : List Nat) :
    hash_to_group M fuel data cs_id =
      sampleLoop M fuel (M.fromSeed (M.sha256 (cs_id ++ data))) := by
  simp [hash_to_group, sha256Update, sha256New]

theorem sampleLoop_isOk {F P PP R : Type} (M : HtgModel F P PP R)
    {n : Nat} {rng : R} {r : Except PrimitivesError PP}
    (h : sampleLoop M n rng = some r) : ∃ pp : PP, r = Except.ok pp := by
  induction n generalizing rng with
  | zero => simp [sampleLoop] at h
  | succ n ih =>
    simp only [sampleLoop] at h
    cases hx : M.getPointFromX (M.randF rng).1 (M.genBool (M.randF rng).2).1 with
    | some p =>
      rw [hx] at h
      exact ⟨M.mulByCofactorToProjective p, (Option.some_inj.mp h).symm⟩
    | none =>
      rw [hx] at h
      exact ih h

/-- C5: the default `hash_to_group` has no runtime failure path: whenever an
invocation returns, the result is `Ok` of a group element, never an `Err`. -/
theorem hash_to_group_no_err {F P PP R : Type} (M : HtgModel F P PP R)
    (fuel : Nat) (data cs_id : List Nat) (r : Except PrimitivesError PP)
    (h : hash_to_group M fuel data cs_id = some r) :
    ∃ pp : PP, r = Except.ok pp := by
  simp only [hash_to_group] at h
  exact sampleLoop_isOk M h

/-- Advance the generator past one rejection-sampling iteration: one
base-field draw followed by one bool draw. -/
def stepRng {F P PP R : Type} (M : HtgModel F P PP R) (rng : R) : R :=
  (M.genBool (M.randF rng).2).2

/-- Generator state at the start of loop iteration `i`. -/
def rngAt {F P PP R : Type} (M : HtgModel F P PP R) (rng : R) : Nat → R
  | 0 => rng
  | i + 1 => rngAt M (stepRng M rng) i

/-- The base-field element `x` drawn in loop iteration `i`. -/
def drawX {F P PP R : Type} (M : HtgModel F P PP R) (rng : R) (i : Nat) : F :=
  (M.randF (rngAt M rng i)).1

/-- The sign flag drawn in loop iteration `i`, after the field element. -/
def drawSign {F P PP R : Type} (M : HtgModel F P PP R) (rng : R) (i : Nat) :
    Bool :=
  (M.genBool (M.randF (rngAt M rng i)).2).1

/-- The point-recovery attempt made in loop iteration `i`. -/
def recoverAt {F P PP R : Type} (M : HtgModel F P PP R) (rng : R) (i : Nat) :
    Option P :=
  M.getPointFromX (drawX M rng i) (drawSign M rng i)

/-- Generator state `hash_to_group` starts its loop with. -/
def initRng {F P PP R : Type} (M : HtgModel F P PP R)
    (data cs_id : List Nat) : R :=
  M.fromSeed (M.sha256 (sha256Update sha256New (cs_id ++ data)))

theorem recoverAt_step {F P PP R : Type} (M : HtgModel F P PP R) (rng : R)
    (i : Nat) : recoverAt M (stepRng M rng) i = recoverAt M rng (i + 1) := rfl

theorem sampleLoop_eq_ok_iff {F P PP R : Type} (M : HtgModel F P PP R)
    (n : Nat) (rng : R) (pp : PP) :
    sampleLoop M n rng = some (Except.ok pp) ↔
      ∃ i < n, (∀ j < i, recoverAt M rng j = none) ∧
        ∃ p, recoverAt M rng i = some p ∧
          pp = M.mulByCofactorToProjective p := by
  induction n generalizing rng with
  | zero => simp [sampleLoop]
  | succ n ih =>
    simp only [sampleLoop]
    have h0 : recoverAt M rng 0 =
        M.getPointFromX (M.randF rng).1 (M.genBool (M.randF rng).2).1 := rfl
    cases hx : M.getPointFromX (M.randF rng).1 (M.genBool (M.randF rng).2).1 with
    | some p =>
      constructor
      · intro h
        refine ⟨0, Nat.succ_pos n, fun j hj => absurd hj (Nat.not_lt_zero j),
          p, h0.trans hx, ?_⟩
        have := Option.some_inj.mp h
        exact (Except.ok.inj this).symm
      · rintro ⟨i, _, hnone, q, hq, rfl⟩
        have hi0 : i = 0 := by
          by_contra hne
          have hcontra := hnone 0 (Nat.pos_of_ne_zero hne)
          rw [h0, hx] at hcontra
          exact Option.noConfusion hcontra
        subst hi0
        rw [h0, hx] at hq
        rw [Option.some_inj.mp hq]
    | none =>
      have key : sampleLoop M n (stepRng M rng) = some (Except.ok pp) ↔
          ∃ i < n + 1, (∀ j < i, recoverAt M rng j = none) ∧
            ∃ p, recoverAt M rng i = some p ∧
              pp = M.mulByCofactorToProjective p := by
        rw [ih (stepRng M rng)]
        constructor
        · rintro ⟨i, hi, hnone, q, hq, hpp⟩
          refine ⟨i + 1, Nat.succ_lt_succ hi, ?_, q, ?_, hpp⟩
          · intro j hj
            cases j with
            | zero => exact h0.trans hx
            | succ j =>
              rw [← recoverAt_step]
              exact hnone j (Nat.lt_of_succ_lt_succ hj)
          · rw [← recoverAt_step]
            exact hq
        · rintro ⟨i, hi, hnone, q, hq, hpp⟩
          cases i with
          | zero =>
            rw [h0, hx] at hq
            exact Option.noConfusion hq
          | succ i =>
            refine ⟨i, Nat.lt_of_succ_lt_succ hi, ?_, q, ?_, hpp⟩
            · intro j hj
              rw [recoverAt_step]
              exact hnone (j + 1) (Nat.succ_lt_succ hj)
            · rw [recoverAt_step]
              exact hq
      exact key

/-- C4: the default `hash_to_group` is rejection sampling over the seeded
generator: it returns a group element exactly when some iteration `i` within
the observed budget recovers a point from the drawn `(x, sign)` pair while
every earlier iteration's recovery fails, and the element returned is the
cofactor multiple of that first recovered point. -/
theorem hash_to_group_rejection_sampling {F P PP R : Type}
    (M : HtgModel F P PP R) (fuel : Nat) (data cs_id : List Nat) (pp : PP) :
    hash_to_group M fuel data cs_id = some (Except.ok pp) ↔
      ∃ i < fuel,
        (∀ j < i, recoverAt M (initRng M data cs_id) j = none) ∧
        ∃ p, recoverAt M (initRng M data cs_id) i = some p ∧
          pp = M.mulByCofactorToProjective p :=
  sampleLoop_eq_ok_iff M fuel (initRng M data cs_id) pp

/- ## Concrete instantiation used to exercise the theorems -/

/-- A concrete instantiation of the external primitives (a toy curve whose
points are the odd naturals, a counter as generator state), used only to run
the theorems above on explicit inputs. -/
def demoModel : HtgModel Nat Nat Nat Nat where
  sha256 := fun l => l
  fromSeed := List.length
  randF := fun r => (r, r + 1)
  genBool := fun r => (r % 2 == 0, r + 1)
  getPointFromX := fun x _ => if x % 2 = 1 then some x else none
  mulByCofactorToProjective := fun p => 2 * p

/-- Concrete run of the determinism theorem: two invocations on
`(message, context) = ([1], [])`, observed for different iteration budgets,
both return and agree. -/
theorem hash_to_group_deterministic_witness :
    hash_to_group demoModel 1 [1] [] = some (Except.ok 2) ∧
      hash_to_group demoModel 5 [1] [] = some (Except.ok 2) ∧
      (Except.ok 2 : Except PrimitivesError Nat) = Except.ok 2 :=
  ⟨rfl, rfl,
    hash_to_group_deterministic demoModel 1 5 [1] [] (Except.ok 2)
      (Except.ok 2) rfl rfl⟩

/-- Concrete run of the no-error theorem on `(message, context) = ([1], [])`. -/
theorem hash_to_group_no_err_witness :
    ∃ pp : Nat, (Except.ok 2 : Except PrimitivesError Nat) = Except.ok pp :=
  hash_to_group_no_err demoModel 1 [1] [] (Except.ok 2) rfl

end Jellyfish
